import Mathlib

/-!
Verification development for the GZCTF-bot notification system.

The repository ships two Python modules under `src/bot/`:
`database.py` (the Notice Store Adapter: `get_game_title`,
`get_recent_notices`, `get_challenge_info_by_name`) and `commands.py`
(the operator command handlers, among them `handle_open_broadcast` and
`handle_close_broadcast`).  The poller / dedup tracker / broadcast gate
module (`notifications.py`) and the helper module (`utils.py`) are
imported by `commands.py` but are not part of the sources; where a claim
depends on them they are modelled from the specification, and each such
definition says so in its doc comment.

Database I/O (`asyncpg`) is embedded by passing the table contents as an
explicit list of rows and the possible connection/query failures as an
explicit oracle; each store function returns its result as an
`Except String` value together with the trace of connection events it
produced, so that resource-scoping claims are statements about that
trace.
-/

/-! ### A model of the Python `json` values and of `str()`

`json.loads` itself is Python library code, so the embedding takes the
parse function as a parameter `loads : String → Option PyJson`, with
`none` standing for a raised `json.JSONDecodeError`. -/

/-- A JSON value as Python's `json.loads` produces it (restricted to the
constructors the bot's payloads use: strings, integers, booleans, null
and arrays). -/
inductive PyJson where
  | str (s : String)
  | int (n : Int)
  | bool (b : Bool)
  | null
  | list (xs : List PyJson)
deriving Repr

/-- Python's `repr()` on a decoded JSON value. -/
def pyRepr : PyJson → String
  | .str s => "'" ++ s ++ "'"
  | .int n => toString n
  | .bool b => if b then "True" else "False"
  | .null => "None"
  | .list xs =>
      "[" ++ String.intercalate ", " (xs.attach.map (fun x => pyRepr x.1)) ++ "]"
decreasing_by
  simp only [PyJson.list.sizeOf_spec]
  have := List.sizeOf_lt_of_mem x.2
  omega

/-- Python's `str()` on a decoded JSON value: the identity on strings,
`repr`-like on everything else. -/
def pyStr : PyJson → String
  | .str s => s
  | .int n => toString n
  | .bool b => if b then "True" else "False"
  | .null => "None"
  | .list xs => pyRepr (.list xs)

/-! ### Connection scoping

Every function in `database.py` follows the pattern
`conn = await asyncpg.connect(POSTGRES_DSN)` followed by
`try: ... finally: await conn.close()`. -/

/-- One connection-lifecycle event of a store call. -/
inductive ConnEvent where
  | acquire
  | release
deriving DecidableEq, Repr

/-- Which of the two awaited database operations fail in a given run:
`connectFails` makes `asyncpg.connect` raise (so no connection ever
exists), `queryFails` makes the `fetch` / `fetchrow` inside the `try`
block raise. -/
structure PgOracle where
  connectFails : Bool
  queryFails : Bool
deriving DecidableEq, Repr

/-- Embeds `conn = await asyncpg.connect(...); try: body finally: await conn.close()`:
when `connect` raises there is no connection to close; otherwise the
`finally` clause closes the connection on the normal path and on the
raising path of the body alike. -/
def connScoped {α : Type} (connectFails : Bool) (body : Except String α) :
    Except String α × List ConnEvent :=
  if connectFails then (Except.error "connection failed", [])
  else (body, [ConnEvent.acquire, ConnEvent.release])

/-! ### `database.py`: `get_game_title` -/

/-- One row of the upstream `"Games"` table. -/
structure GameRow where
  Id : Int
  Title : String
deriving DecidableEq, Repr

/-- Embeds `get_game_title` from `src/bot/database.py`: fetch the first
`"Games"` row whose `"Id"` matches, raise `ValueError` when there is
none, close the connection in a `finally` block. -/
def get_game_title (db : List GameRow) (o : PgOracle) (game_id : Int) :
    Except String String × List ConnEvent :=
  connScoped o.connectFails
    (if o.queryFails then Except.error "query failed"
     else
       match db.find? (fun g => g.Id = game_id) with
       | none => Except.error ("未找到ID为 " ++ toString game_id ++ " 的比赛")
       | some g => Except.ok g.Title)

/-! ### `database.py`: `get_recent_notices` -/

/-- One row of the upstream `"GameNotices"` table (the `"Type"` column is
rendered `TypeCode` because `Type` is reserved in Lean). -/
structure NoticeRow where
  Id : Int
  GameId : Int
  TypeCode : Int
  Values : String
  PublishTimeUtc : Int
deriving DecidableEq, Repr

/-- One row of the result set of `get_recent_notices`: the selected
columns plus the `CASE`-computed `notice_type` label. -/
structure NoticeOut where
  Id : Int
  TypeCode : Int
  Values : String
  PublishTimeUtc : Int
  notice_type : String
deriving DecidableEq, Repr

/-- Embeds the `CASE gn."Type" ... END` expression of the query in
`get_recent_notices`. -/
def notice_type_label (t : Int) : String :=
  if t = 0 then "📢 公告通知"
  else if t = 1 then "🥇 一血通知"
  else if t = 2 then "🥈 二血通知"
  else if t = 3 then "🥉 三血通知"
  else if t = 4 then "💡 提示更新"
  else if t = 5 then "🆕 新题目开放"
  else "❓ 未知类型"

/-- The `ORDER BY gn."PublishTimeUtc" DESC` ordering: `a` may precede `b`
when `a`'s publish time is at least `b`'s. -/
def noticeDescOrder (a b : NoticeOut) : Prop :=
  b.PublishTimeUtc ≤ a.PublishTimeUtc

instance : DecidableRel noticeDescOrder :=
  fun a b => inferInstanceAs (Decidable (b.PublishTimeUtc ≤ a.PublishTimeUtc))

instance : IsTotal NoticeOut noticeDescOrder :=
  ⟨fun a b => (le_total b.PublishTimeUtc a.PublishTimeUtc).imp id id⟩

instance : IsTrans NoticeOut noticeDescOrder :=
  ⟨fun _ _ _ hab hbc => le_trans hbc hab⟩

/-- The result set of the SQL query in `get_recent_notices`: rows of the
given game published strictly after the bound, projected onto the
selected columns, ordered by publish time descending. -/
def run_notices_query (db : List NoticeRow) (game_id : Int) (bound : Int) :
    List NoticeOut :=
  List.insertionSort noticeDescOrder
    ((db.filter (fun r => r.GameId = game_id ∧ r.PublishTimeUtc > bound)).map
      (fun r => ⟨r.Id, r.TypeCode, r.Values, r.PublishTimeUtc, notice_type_label r.TypeCode⟩))

/-- Embeds `get_recent_notices` from `src/bot/database.py`: the lower
bound of the query is computed inside the call as
`datetime.utcnow() - timedelta(seconds=seconds)`; `now` stands for the
value `datetime.utcnow()` returns during the call. -/
def get_recent_notices (db : List NoticeRow) (o : PgOracle) (game_id : Int)
    (seconds : Int := 10) (now : Int) :
    Except String (List NoticeOut) × List ConnEvent :=
  connScoped o.connectFails
    (if o.queryFails then Except.error "query failed"
     else Except.ok (run_notices_query db game_id (now - seconds)))

/-- The Notice Store Adapter contract exactly as the spec words it:
`fetch_notices_since(lower_bound_time)` takes the lower-bound timestamp
itself as input and returns the matching notices newest first.  Kept
separate from `get_recent_notices` so the two can be compared. -/
def fetch_notices_since (db : List NoticeRow) (game_id : Int)
    (lower_bound_time : Int) : List NoticeOut :=
  run_notices_query db game_id lower_bound_time

/-! ### `database.py`: `get_challenge_info_by_name` -/

/-- One row of the upstream `"GameChallenges"` table. -/
structure ChallengeRow where
  GameId : Int
  Title : String
  Category : Int
deriving DecidableEq, Repr

/-- Embeds the `CASE gc."Category" ... END` expression of the query in
`get_challenge_info_by_name`. -/
def category_name (c : Int) : String :=
  if c = 0 then "Misc"
  else if c = 1 then "Crypto"
  else if c = 2 then "Pwn"
  else if c = 3 then "Web"
  else if c = 4 then "Reverse"
  else if c = 5 then "Blockchain"
  else if c = 6 then "Forensics"
  else if c = 7 then "Hardware"
  else if c = 8 then "Mobile"
  else if c = 9 then "PPC"
  else if c = 10 then "AI"
  else if c = 11 then "Pentest"
  else if c = 12 then "OSINT"
  else "Unknown"

/-- Python's `str.startswith`, character for character. -/
def startswith (s pre : String) : Bool := pre.data.isPrefixOf s.data

/-- Python's `str.endswith`, character for character. -/
def endswith (s suf : String) : Bool := suf.data.isSuffixOf s.data

/-- Embeds the payload-name resolution step of
`get_challenge_info_by_name` (lines 88-97 of `database.py`): when the
name starts with `[` and ends with `]`, try `json.loads`; when that
yields a non-empty Python list, take `str` of its first element;
otherwise (parse error, non-list value or empty list) keep the raw
name. -/
def actual_challenge_name (loads : String → Option PyJson)
    (challenge_name : String) : String :=
  if startswith challenge_name "[" && endswith challenge_name "]" then
    match loads challenge_name with
    | some (PyJson.list (v :: _)) => pyStr v
    | _ => challenge_name
  else challenge_name

/-- One row of the result set of `get_challenge_info_by_name`. -/
structure ChallengeOut where
  Title : String
  Category : Int
  CategoryName : String
deriving DecidableEq, Repr

/-- Embeds `get_challenge_info_by_name` from `src/bot/database.py`:
resolve the payload to a challenge name, fetch the first matching
`"GameChallenges"` row (`fetchrow` with `LIMIT 1`, `none` when no row
matches), close the connection in a `finally` block. -/
def get_challenge_info_by_name (db : List ChallengeRow)
    (loads : String → Option PyJson) (o : PgOracle) (game_id : Int)
    (challenge_name : String) :
    Except String (Option ChallengeOut) × List ConnEvent :=
  connScoped o.connectFails
    (if o.queryFails then Except.error "query failed"
     else
       Except.ok
         ((db.find? (fun c =>
             c.GameId = game_id ∧ c.Title = actual_challenge_name loads challenge_name)).map
           (fun c => ⟨c.Title, c.Category, category_name c.Category⟩)))

/-! ### `commands.py`: the broadcast control handlers

`commands.py` is in the sources; the two helpers it calls are not:
`check_admin_permission` / `validate_command_prerequisites` live in
`utils.py` and the gate accessors live in `notifications.py`.  Their
observable outcomes enter the handler as parameters (`isAdmin`,
`prereq`), and the gate is the explicit `gate : Bool` state. -/

/-- Modelled from the spec: `notifications.py` is not under `src/`; per
§4.3 the Broadcast Gate is "a single boolean flag" with `get`, read here
by `is_auto_broadcast_enabled`. -/
def is_auto_broadcast_enabled (gate : Bool) : Bool := gate

/-- Modelled from the spec: `notifications.py` is not under `src/`; per
§4.3 the Broadcast Gate is "a single boolean flag" with
`set(enabled: bool)`, written here by `set_auto_broadcast_enabled`. -/
def set_auto_broadcast_enabled (v : Bool) (_gate : Bool) : Bool := v

/-- The observable outcome of one broadcast-command handler run: the
gate value on return, the responses sent to the chat, and the arguments
of every `set_auto_broadcast_enabled` call the run made. -/
structure HandlerResult where
  gate : Bool
  sent : List String
  setCalls : List Bool
deriving DecidableEq, Repr

/-- Embeds `handle_open_broadcast` from `src/bot/commands.py`: deny
non-admins, report prerequisite errors, answer "already on" when the
gate is on, otherwise set the gate and report the change.  `isAdmin` is
the outcome of `check_admin_permission(event)` and `prereq` the outcome
of `validate_command_prerequisites("open", event)`. -/
def handle_open_broadcast (isAdmin : Bool) (prereq : Option String)
    (gate : Bool) : HandlerResult :=
  if !isAdmin then ⟨gate, ["权限不足，只有管理员才能执行此命令。"], []⟩
  else
    match prereq with
    | some msg =>
        if msg = "PERMISSION_DENIED" then ⟨gate, [], []⟩ else ⟨gate, [msg], []⟩
    | none =>
        if is_auto_broadcast_enabled gate then ⟨gate, ["自动播报已是开启状态。"], []⟩
        else ⟨set_auto_broadcast_enabled true gate, ["已开启自动播报。"], [true]⟩

/-- Embeds `handle_close_broadcast` from `src/bot/commands.py`,
symmetric to `handle_open_broadcast`. -/
def handle_close_broadcast (isAdmin : Bool) (prereq : Option String)
    (gate : Bool) : HandlerResult :=
  if !isAdmin then ⟨gate, ["权限不足，只有管理员才能执行此命令。"], []⟩
  else
    match prereq with
    | some msg =>
        if msg = "PERMISSION_DENIED" then ⟨gate, [], []⟩ else ⟨gate, [msg], []⟩
    | none =>
        if !is_auto_broadcast_enabled gate then ⟨gate, ["自动播报已是关闭状态。"], []⟩
        else ⟨set_auto_broadcast_enabled false gate, ["已关闭自动播报。"], [false]⟩

/-! ### The poller and the dedup/watermark tracker

`notifications.py` is not under `src/`; the definitions below are
modelled from the specification (§3, §4.4, §4.5). -/

/-- Modelled from the spec: one notice as the dedup tracker sees it
(§3), carrying the upstream id and the publish timestamp. -/
structure Notice where
  id : Nat
  published_at : Int
deriving DecidableEq, Repr

/-- Modelled from the spec: the tracker's working state (§3), the
highest id delivered so far with its timestamp. -/
structure Watermark where
  last_seen_id : Nat
  last_seen_at : Int
deriving DecidableEq, Repr

/-- Modelled from the spec: `filter_new` retains only notices whose `id`
is greater than `last_seen_id` (§4.4). -/
def filter_new (w : Watermark) (notices : List Notice) : List Notice :=
  notices.filter (fun n => w.last_seen_id < n.id)

/-- Modelled from the spec: `advance` moves the watermark to a processed
notice, never decreasing it (§3 invariant, §4.4). -/
def advance (w : Watermark) (n : Notice) : Watermark :=
  if w.last_seen_id < n.id then ⟨n.id, n.published_at⟩ else w

/-- Modelled from the spec: one poll cycle (§4.5 steps 3-5): filter the
fetched notices through the tracker, process survivors oldest to newest
(the fetch is newest first, hence the reversal), advance the watermark
over every processed notice, and deliver them only when the gate is
open.  Returns the new watermark and the notices handed to the Delivery
Sink. -/
def poll_cycle (gate : Bool) (w : Watermark) (fetched : List Notice) :
    Watermark × List Notice :=
  let fresh := (filter_new w fetched).reverse
  (fresh.foldl advance w, if gate then fresh else [])

/-- Modelled from the spec: a run of consecutive poll cycles in one
process lifetime; each list element is one cycle's gate reading and
fetched window.  Returns the final watermark and the concatenation of
everything handed to the Delivery Sink. -/
def poll_run (w : Watermark) : List (Bool × List Notice) → Watermark × List Notice
  | [] => (w, [])
  | c :: cs =>
      let step := poll_cycle c.1 w c.2
      let rest := poll_run step.1 cs
      (rest.1, step.2 ++ rest.2)

/-! ### Auxiliary definitions for the statements -/

/-- A connection trace is properly scoped: every acquired connection is
released, and when anything happened at all the last event is the
release. -/
def connBalanced (t : List ConnEvent) : Prop :=
  t.count ConnEvent.acquire = t.count ConnEvent.release ∧
  (t = [] ∨ t.getLast? = some ConnEvent.release)

/-- A parse function behaving like Python's `json.loads` on the payload
`" [1]"`: `json.loads` tolerates surrounding whitespace, so `" [1]"`
decodes to the one-element list containing the number 1. -/
def loadsWhitespaceExample : String → Option PyJson :=
  fun s => if s = " [1]" then some (PyJson.list [PyJson.int 1]) else none

/-! ### Helper lemmas -/

theorem connScoped_balanced {α : Type} (cf : Bool) (body : Except String α) :
    connBalanced (connScoped cf body).2 := by
  cases cf
  · exact ⟨rfl, Or.inr rfl⟩
  · exact ⟨rfl, Or.inl rfl⟩

theorem mem_run_notices_query {db : List NoticeRow} {game_id bound : Int}
    {r : NoticeOut} :
    r ∈ run_notices_query db game_id bound ↔
      ∃ nr, nr ∈ db ∧ nr.GameId = game_id ∧ nr.PublishTimeUtc > bound ∧
        r = ⟨nr.Id, nr.TypeCode, nr.Values, nr.PublishTimeUtc,
              notice_type_label nr.TypeCode⟩ := by
  unfold run_notices_query
  rw [List.mem_insertionSort, List.mem_map]
  constructor
  · rintro ⟨nr, hmem, rfl⟩
    rw [List.mem_filter] at hmem
    obtain ⟨h1, h2⟩ := hmem
    simp only [decide_eq_true_eq] at h2
    exact ⟨nr, h1, h2.1, h2.2, rfl⟩
  · rintro ⟨nr, h1, h2, h3, rfl⟩
    exact ⟨nr, List.mem_filter.mpr ⟨h1, by simp [h2, h3]⟩, rfl⟩

/-! ### Claim C2 -/

/-- C2: for every game id and lower-bound time, the notice query returns
only rows of that game published strictly after the bound, ordered by
publish time descending, and when no row matches, `get_recent_notices`
returns the empty list inside `Except.ok` rather than an error. -/
theorem notices_query_only_newer_sorted_or_empty
    (db : List NoticeRow) (game_id bound : Int) :
    (∀ r ∈ run_notices_query db game_id bound,
        ∃ nr, nr ∈ db ∧ nr.GameId = game_id ∧ nr.PublishTimeUtc > bound ∧
          r = ⟨nr.Id, nr.TypeCode, nr.Values, nr.PublishTimeUtc,
                notice_type_label nr.TypeCode⟩) ∧
    List.Sorted noticeDescOrder (run_notices_query db game_id bound) ∧
    (∀ (o : PgOracle) (s now : Int), o.connectFails = false →
        o.queryFails = false →
        (∀ nr ∈ db, nr.GameId = game_id → nr.PublishTimeUtc ≤ now - s) →
        (get_recent_notices db o game_id s now).1 = Except.ok []) := by
  refine ⟨fun r hr => mem_run_notices_query.mp hr,
          List.sorted_insertionSort noticeDescOrder _, ?_⟩
  intro o s now hc hq hno
  have hf : db.filter
      (fun r => r.GameId = game_id ∧ r.PublishTimeUtc > now - s) = [] := by
    rw [List.filter_eq_nil_iff]
    intro a ha
    simp only [decide_eq_true_eq, not_and, not_lt]
    exact hno a ha
  have hq2 : run_notices_query db game_id (now - s) = [] := by
    unfold run_notices_query
    rw [hf]
    rfl
  simp [get_recent_notices, connScoped, hc, hq, hq2]

/-- Witness for C2: a store whose only notice belongs to another game
yields `Except.ok []`, not an error. -/
theorem notices_query_only_newer_sorted_or_empty_witness :
    (get_recent_notices [⟨1, 2, 0, "x", 100⟩] ⟨false, false⟩ 1 10 20).1 =
      Except.ok [] :=
  (notices_query_only_newer_sorted_or_empty [⟨1, 2, 0, "x", 100⟩] 1 10).2.2
    ⟨false, false⟩ 10 20 rfl rfl (by decide)

/-! ### Claim C3 -/

/-- C3 counterexample: `get_recent_notices` does not take the watermark
as its lower bound.  With the watermark at time 2, the spec-side
`fetch_notices_since` returns the notice published at time 3, but the
code, called at clock 20 with its 10-second lookback, returns no rows:
its bound is `now - seconds`, not the watermark. -/
theorem fetch_bound_is_not_watermark :
    (get_recent_notices [⟨1, 1, 0, "x", 3⟩] ⟨false, false⟩ 1 10 20).1 =
      Except.ok [] ∧
    fetch_notices_since [⟨1, 1, 0, "x", 3⟩] 1 2 =
      [⟨1, 0, "x", 3, "📢 公告通知"⟩] ∧
    (2 : Int) < 3 := by
  exact ⟨rfl, rfl, by decide⟩

/-- C3 (amended): the lower bound of the notice fetch query is derived
inside the fetch from the current clock minus the lookback window
`seconds` (default 10): every returned row is published strictly after
`now - seconds`, and every stored row of the game published strictly
after `now - seconds` is returned. -/
theorem fetch_bound_is_clock_minus_lookback
    (db : List NoticeRow) (o : PgOracle) (game_id s now : Int)
    (l : List NoticeOut) (hc : o.connectFails = false)
    (hq : o.queryFails = false)
    (hres : (get_recent_notices db o game_id s now).1 = Except.ok l) :
    (∀ r ∈ l, r.PublishTimeUtc > now - s) ∧
    (∀ nr ∈ db, nr.GameId = game_id → nr.PublishTimeUtc > now - s →
        (⟨nr.Id, nr.TypeCode, nr.Values, nr.PublishTimeUtc,
           notice_type_label nr.TypeCode⟩ : NoticeOut) ∈ l) := by
  have hl : l = run_notices_query db game_id (now - s) := by
    simp [get_recent_notices, connScoped, hc, hq] at hres
    exact hres.symm
  subst hl
  constructor
  · intro r hr
    obtain ⟨nr, _, _, h3, rfl⟩ := mem_run_notices_query.mp hr
    exact h3
  · intro nr h1 h2 h3
    exact mem_run_notices_query.mpr ⟨nr, h1, h2, h3, rfl⟩

/-- Witness for the amended C3: the notice published at time 15 is
strictly inside the 10-second lookback ending at clock 20, and is
returned. -/
theorem fetch_bound_is_clock_minus_lookback_witness :
    (get_recent_notices [⟨1, 1, 0, "x", 15⟩] ⟨false, false⟩ 1 10 20).1 =
      Except.ok [⟨1, 0, "x", 15, "📢 公告通知"⟩] ∧
    (∀ r ∈ [(⟨1, 0, "x", 15, "📢 公告通知"⟩ : NoticeOut)],
        r.PublishTimeUtc > 20 - 10) :=
  ⟨rfl,
   (fetch_bound_is_clock_minus_lookback [⟨1, 1, 0, "x", 15⟩] ⟨false, false⟩
      1 10 20 [⟨1, 0, "x", 15, "📢 公告通知"⟩] rfl rfl rfl).1⟩

/-! ### Claim C4 -/

/-- C4: the type-to-label mapping of the notice query is total: codes 0
through 5 yield the announcement, first-blood, second-blood,
third-blood, hint-update and new-challenge labels, and every other
integer code yields the unknown-type label. -/
theorem notice_type_label_total :
    notice_type_label 0 = "📢 公告通知" ∧
    notice_type_label 1 = "🥇 一血通知" ∧
    notice_type_label 2 = "🥈 二血通知" ∧
    notice_type_label 3 = "🥉 三血通知" ∧
    notice_type_label 4 = "💡 提示更新" ∧
    notice_type_label 5 = "🆕 新题目开放" ∧
    ∀ t : Int, t ≠ 0 → t ≠ 1 → t ≠ 2 → t ≠ 3 → t ≠ 4 → t ≠ 5 →
      notice_type_label t = "❓ 未知类型" := by
  refine ⟨by decide, by decide, by decide, by decide, by decide, by decide, ?_⟩
  intro t h0 h1 h2 h3 h4 h5
  simp [notice_type_label, h0, h1, h2, h3, h4, h5]

/-- Witness for C4: the out-of-range code 42 maps to the unknown-type
label. -/
theorem notice_type_label_total_witness :
    notice_type_label 42 = "❓ 未知类型" :=
  notice_type_label_total.2.2.2.2.2.2 42 (by decide) (by decide) (by decide)
    (by decide) (by decide) (by decide)

/-! ### Claim C5 -/

/-- C5: the payload-name decoding of `get_challenge_info_by_name` is
total, and on a bracketed payload it uses the inner value of a
one-element JSON array in place of the payload, while a bracketed
payload that fails to parse is kept unchanged. -/
theorem payload_decode_unwraps_or_keeps_raw
    (loads : String → Option PyJson) (name : String)
    (hb : startswith name "[" = true) (he : endswith name "]" = true) :
    (∀ v, loads name = some (PyJson.list [v]) →
        actual_challenge_name loads name = pyStr v) ∧
    (loads name = none → actual_challenge_name loads name = name) := by
  unfold actual_challenge_name
  rw [hb, he]
  simp only [Bool.and_self, if_true]
  constructor
  · intro v hv
    rw [hv]
  · intro hv
    rw [hv]

/-- Witness for C5: the payload string of a one-element JSON array is
unwrapped to the inner value. -/
theorem payload_decode_unwraps_or_keeps_raw_witness :
    startswith "[1]" "[" = true ∧ endswith "[1]" "]" = true ∧
    actual_challenge_name
        (fun s => if s = "[1]" then some (PyJson.list [PyJson.int 1]) else none)
        "[1]" = pyStr (PyJson.int 1) :=
  ⟨by decide, by decide,
   (payload_decode_unwraps_or_keeps_raw _ "[1]" (by decide) (by decide)).1
     (PyJson.int 1) (by simp)⟩

/-! ### Claim C9 -/

/-- C9 counterexample: a payload that parses as a non-empty JSON list is
not always replaced by its first element.  Python's `json.loads`
tolerates surrounding whitespace, so `" [1]"` parses to the one-element
list `[1]`, yet the code's `startswith('[')` guard fails on it and the
raw payload is used unchanged instead of `str(1)`. -/
theorem payload_list_not_always_unwrapped :
    loadsWhitespaceExample " [1]" =
      some (PyJson.list (PyJson.int 1 :: [])) ∧
    actual_challenge_name loadsWhitespaceExample " [1]" = " [1]" ∧
    pyStr (PyJson.int 1) = "1" ∧
    (" [1]" : String) ≠ "1" :=
  ⟨rfl, rfl, rfl, by decide⟩

/-- C9 (amended): for every payload string that starts with `[` and
ends with `]` and parses as a JSON list with one or more elements, the
challenge-info lookup uses only the string form of the first element as
the challenge name, discarding the remaining elements; and a bracketed
payload parsing to an empty list or to a non-list value, or failing to
parse, is used unchanged. -/
theorem bracketed_payload_uses_first_element
    (loads : String → Option PyJson) (name : String)
    (hb : startswith name "[" = true) (he : endswith name "]" = true) :
    (∀ v vs, loads name = some (PyJson.list (v :: vs)) →
        actual_challenge_name loads name = pyStr v) ∧
    (loads name = some (PyJson.list []) →
        actual_challenge_name loads name = name) ∧
    (∀ j, loads name = some j → (∀ xs, j ≠ PyJson.list xs) →
        actual_challenge_name loads name = name) ∧
    (loads name = none →
        actual_challenge_name loads name = name) ∧
    (∀ (db : List ChallengeRow) (o : PgOracle) (game_id : Int),
        get_challenge_info_by_name db loads o game_id name =
          get_challenge_info_by_name db (fun _ => none) o game_id
            (actual_challenge_name loads name)) := by
  have hraw : ∀ s, actual_challenge_name (fun _ => none) s = s := by
    intro s
    unfold actual_challenge_name
    split <;> rfl
  refine ⟨?_, ?_, ?_, ?_, ?_⟩
  · intro v vs hv
    unfold actual_challenge_name
    rw [hb, he, hv]
    simp only [Bool.and_self, if_true]
  · intro hv
    unfold actual_challenge_name
    rw [hb, he, hv]
    simp only [Bool.and_self, if_true]
  · intro j hj hne
    unfold actual_challenge_name
    rw [hb, he, hj]
    simp only [Bool.and_self, if_true]
    cases j with
    | list xs =>
        cases xs with
        | nil => rfl
        | cons v vs => exact absurd rfl (hne (v :: vs))
    | str s => rfl
    | int n => rfl
    | bool b => rfl
    | null => rfl
  · intro hv
    unfold actual_challenge_name
    rw [hb, he, hv]
    simp only [Bool.and_self, if_true]
  · intro db o game_id
    unfold get_challenge_info_by_name
    rw [hraw (actual_challenge_name loads name)]

/-- Witness for the amended C9: a two-element array payload resolves to
the string form of its first element, and the lookup finds the
challenge row under that name. -/
theorem bracketed_payload_uses_first_element_witness :
    actual_challenge_name
        (fun s => if s = "[1, 2]"
          then some (PyJson.list [PyJson.int 1, PyJson.int 2]) else none)
        "[1, 2]" = pyStr (PyJson.int 1) ∧
    (get_challenge_info_by_name [⟨7, "1", 3⟩]
        (fun s => if s = "[1, 2]"
          then some (PyJson.list [PyJson.int 1, PyJson.int 2]) else none)
        ⟨false, false⟩ 7 "[1, 2]").1 =
      Except.ok (some ⟨"1", 3, "Web"⟩) :=
  ⟨(bracketed_payload_uses_first_element _ "[1, 2]" (by decide) (by decide)).1
      (PyJson.int 1) [PyJson.int 2] (by simp),
   by
    rw [(bracketed_payload_uses_first_element _ "[1, 2]" (by decide)
          (by decide)).2.2.2.2 [⟨7, "1", 3⟩] ⟨false, false⟩ 7]
    rfl⟩

/-! ### Claim C6 -/

/-- C6: the broadcast control commands are idempotent on the gate: for
each gate state, the command whose target equals the current state
leaves the gate unchanged, makes no setter call and reports the
already-in-that-state message, while the other command moves the gate to
its target and reports the change. -/
theorem broadcast_commands_idempotent :
    handle_open_broadcast true none true =
      ⟨true, ["自动播报已是开启状态。"], []⟩ ∧
    handle_open_broadcast true none false =
      ⟨true, ["已开启自动播报。"], [true]⟩ ∧
    handle_close_broadcast true none false =
      ⟨false, ["自动播报已是关闭状态。"], []⟩ ∧
    handle_close_broadcast true none true =
      ⟨false, ["已关闭自动播报。"], [false]⟩ :=
  ⟨rfl, rfl, rfl, rfl⟩

/-! ### Claim C7 -/

/-- C7: a caller failing the admin-permission check never mutates the
Broadcast Gate: both handlers send only the permission-denied response,
return with the gate unchanged, and make no setter call. -/
theorem gate_untouched_without_admin :
    ∀ (prereq : Option String) (g : Bool),
      handle_open_broadcast false prereq g =
        ⟨g, ["权限不足，只有管理员才能执行此命令。"], []⟩ ∧
      handle_close_broadcast false prereq g =
        ⟨g, ["权限不足，只有管理员才能执行此命令。"], []⟩ :=
  fun _ _ => ⟨rfl, rfl⟩

/-! ### Claim C8 -/

/-- C8: every store-adapter call scopes its connection strictly within
the call: on every oracle outcome, including failing queries, the trace
acquires and releases equally often and, when non-empty, ends with the
release. -/
theorem store_calls_scope_connection
    (o : PgOracle) (gdb : List GameRow) (ndb : List NoticeRow)
    (cdb : List ChallengeRow) (loads : String → Option PyJson)
    (game_id s now : Int) (challenge_name : String) :
    connBalanced (get_game_title gdb o game_id).2 ∧
    connBalanced (get_recent_notices ndb o game_id s now).2 ∧
    connBalanced (get_challenge_info_by_name cdb loads o game_id
      challenge_name).2 :=
  ⟨connScoped_balanced _ _, connScoped_balanced _ _, connScoped_balanced _ _⟩

/-! ### Claim C10 -/

/-- C10: with a reachable store, `get_game_title` returns the stored
title of the first matching game row and raises an error, not a
sentinel, when no row matches; in both cases the trace ends with the
connection release. -/
theorem game_title_found_or_error
    (db : List GameRow) (game_id : Int) (o : PgOracle)
    (hc : o.connectFails = false) (hq : o.queryFails = false) :
    (∀ g, db.find? (fun g2 => g2.Id = game_id) = some g →
        (get_game_title db o game_id).1 = Except.ok g.Title) ∧
    (db.find? (fun g2 => g2.Id = game_id) = none →
        (get_game_title db o game_id).1 =
          Except.error ("未找到ID为 " ++ toString game_id ++ " 的比赛")) ∧
    (get_game_title db o game_id).2.getLast? = some ConnEvent.release := by
  refine ⟨?_, ?_, ?_⟩
  · intro g hg
    simp [get_game_title, connScoped, hc, hq, hg]
  · intro hg
    simp [get_game_title, connScoped, hc, hq, hg]
  · simp [get_game_title, connScoped, hc]

/-- Witness for C10: with one stored game, the matching id yields its
title and a missing id yields the error. -/
theorem game_title_found_or_error_witness :
    (get_game_title [⟨1, "Game A"⟩] ⟨false, false⟩ 1).1 =
      Except.ok "Game A" ∧
    (get_game_title [⟨1, "Game A"⟩] ⟨false, false⟩ 2).1 =
      Except.error ("未找到ID为 " ++ toString (2 : Int) ++ " 的比赛") :=
  ⟨(game_title_found_or_error [⟨1, "Game A"⟩] 1 ⟨false, false⟩ rfl rfl).1
      ⟨1, "Game A"⟩ rfl,
   (game_title_found_or_error [⟨1, "Game A"⟩] 2 ⟨false, false⟩ rfl rfl).2.1
      rfl⟩

/-! ### Watermark lemmas for claim C1 -/

theorem advance_le (w : Watermark) (n : Notice) :
    w.last_seen_id ≤ (advance w n).last_seen_id := by
  unfold advance
  split
  · exact Nat.le_of_lt (by assumption)
  · exact le_refl _

theorem le_advance_id (w : Watermark) (n : Notice) :
    n.id ≤ (advance w n).last_seen_id := by
  unfold advance
  split
  · exact le_refl _
  · omega

theorem foldl_advance_le :
    ∀ (ns : List Notice) (w : Watermark),
      w.last_seen_id ≤ (ns.foldl advance w).last_seen_id
  | [], _ => le_refl _
  | n :: ns, w => le_trans (advance_le w n) (foldl_advance_le ns (advance w n))

theorem mem_le_foldl_advance :
    ∀ (ns : List Notice) (w : Watermark) (n : Notice), n ∈ ns →
      n.id ≤ (ns.foldl advance w).last_seen_id := by
  intro ns
  induction ns with
  | nil => intro w n h; cases h
  | cons m ms ih =>
      intro w n h
      rcases List.mem_cons.mp h with rfl | h2
      · exact le_trans (le_advance_id w n) (foldl_advance_le ms _)
      · exact ih _ n h2

theorem mem_filter_new {w : Watermark} {ns : List Notice} {n : Notice} :
    n ∈ filter_new w ns ↔ n ∈ ns ∧ w.last_seen_id < n.id := by
  simp [filter_new, List.mem_filter]

theorem filter_new_ids_nodup {w : Watermark} {ns : List Notice}
    (h : (ns.map Notice.id).Nodup) :
    ((filter_new w ns).map Notice.id).Nodup :=
  List.Nodup.sublist (List.Sublist.map Notice.id (List.filter_sublist ns)) h

theorem poll_cycle_bounds (g : Bool) (w : Watermark) (ns : List Notice) :
    w.last_seen_id ≤ (poll_cycle g w ns).1.last_seen_id ∧
    ∀ n ∈ (poll_cycle g w ns).2,
      w.last_seen_id < n.id ∧ n.id ≤ (poll_cycle g w ns).1.last_seen_id := by
  refine ⟨foldl_advance_le _ _, ?_⟩
  intro n hn
  have hmem : n ∈ (filter_new w ns).reverse := by
    cases g with
    | true => simpa [poll_cycle] using hn
    | false => simp [poll_cycle] at hn
  refine ⟨(mem_filter_new.mp (List.mem_reverse.mp hmem)).2, ?_⟩
  exact mem_le_foldl_advance _ _ _ hmem

theorem poll_cycle_ids_nodup (g : Bool) (w : Watermark) (ns : List Notice)
    (h : (ns.map Notice.id).Nodup) :
    (((poll_cycle g w ns).2).map Notice.id).Nodup := by
  cases g with
  | false => simp [poll_cycle]
  | true =>
      simp only [poll_cycle, if_true, List.map_reverse, List.nodup_reverse]
      exact filter_new_ids_nodup h

theorem poll_run_spec :
    ∀ (cs : List (Bool × List Notice)) (w : Watermark),
      (∀ c ∈ cs, ((c.2).map Notice.id).Nodup) →
      (((poll_run w cs).2).map Notice.id).Nodup ∧
      (∀ n ∈ (poll_run w cs).2,
          w.last_seen_id < n.id ∧
          n.id ≤ (poll_run w cs).1.last_seen_id) ∧
      w.last_seen_id ≤ (poll_run w cs).1.last_seen_id := by
  intro cs
  induction cs with
  | nil =>
      intro w _
      simp [poll_run]
  | cons c cs ih =>
      intro w h
      have hc : ((c.2).map Notice.id).Nodup := h c (List.mem_cons_self c cs)
      have hcs : ∀ x ∈ cs, ((x.2).map Notice.id).Nodup :=
        fun x hx => h x (List.mem_cons_of_mem c hx)
      obtain ⟨ihn, ihb, ihw⟩ := ih (poll_cycle c.1 w c.2).1 hcs
      have cyc := poll_cycle_bounds c.1 w c.2
      have cnodup := poll_cycle_ids_nodup c.1 w c.2 hc
      simp only [poll_run]
      refine ⟨?_, ?_, ?_⟩
      · rw [List.map_append]
        refine List.Nodup.append cnodup ihn ?_
        intro a ha hb
        obtain ⟨n, hn, rfl⟩ := List.mem_map.mp ha
        obtain ⟨m, hm, he⟩ := List.mem_map.mp hb
        have h1 := (cyc.2 n hn).2
        have h2 := (ihb m hm).1
        omega
      · intro n hn
        rcases List.mem_append.mp hn with h1 | h2
        · exact ⟨(cyc.2 n h1).1, le_trans (cyc.2 n h1).2 ihw⟩
        · exact ⟨lt_of_le_of_lt cyc.1 (ihb n h2).1, (ihb n h2).2⟩
      · exact le_trans cyc.1 ihw

/-! ### Claim C1 -/

/-- C1: across every sequence of poll cycles in one process run, each
distinct notice id is handed to the Delivery Sink at most once, even
when consecutive fetch windows overlap and return the same row again:
once the watermark has advanced past a notice it is never delivered
again. -/
theorem delivered_at_most_once
    (w0 : Watermark) (cycles : List (Bool × List Notice))
    (h : ∀ c ∈ cycles, ((c.2).map Notice.id).Nodup) :
    ∀ i : ℕ, (((poll_run w0 cycles).2).map Notice.id).count i ≤ 1 :=
  fun i =>
    List.nodup_iff_count_le_one.mp (poll_run_spec cycles w0 h).1 i

/-- Witness for C1, the spec's concrete scenario C: two consecutive
cycles both fetch the same notice `id = 5`; it is delivered at most
once across both cycles. -/
theorem delivered_at_most_once_witness :
    (∀ c ∈ [((true : Bool), [(⟨5, 100⟩ : Notice)]),
            ((true : Bool), [(⟨5, 100⟩ : Notice)])],
        ((c.2).map Notice.id).Nodup) ∧
    (((poll_run ⟨0, 0⟩
        [((true : Bool), [(⟨5, 100⟩ : Notice)]),
         ((true : Bool), [(⟨5, 100⟩ : Notice)])]).2).map Notice.id).count 5
      ≤ 1 :=
  ⟨by decide,
   delivered_at_most_once ⟨0, 0⟩
     [((true : Bool), [(⟨5, 100⟩ : Notice)]),
      ((true : Bool), [(⟨5, 100⟩ : Notice)])] (by decide) 5⟩
